import Mathlib

/-!
Shallow embedding of the GAMENIGHT SDK game lifecycle controller.

The source is the Game class (readyUp, start, startRound, nextRound,
startTurn, nextTurn, playerMove, onEnd, setPlayerTurnOrder, findPlayer),
the Player base class, and the shuffle helper.  Promises are embedded by
sequencing their resolution synchronously (the design serializes all
operations on one game instance); a hook is a pure function supplied as a
parameter, and the mutually recursive round/turn advancement chain takes a
fuel argument because the source recursion is not structurally bounded.
Broadcasts to the room are recorded in an events list.
-/

namespace Gamenight

/-- Player identifiers (UUID strings in the source). -/
abbrev PId := String

/-- Embedding of the Player base class: the identifier plus the ready flag
that Game.readyUp stores on the player object (absent, hence falsy, until
first set). -/
structure Player where
  _id : PId
  ready : Bool
deriving Repr, DecidableEq

/-- JavaScript values relevant to the readyUp hook protocol. -/
inductive JSVal where
  | undefined
  | null
  | bool (b : Bool)
  | num (n : Nat)
  | str (s : String)
deriving Repr, DecidableEq

/-- JavaScript truthiness for the embedded values. -/
def JSVal.truthy : JSVal → Bool
  | .undefined => false
  | .null => false
  | .bool b => b
  | .num n => n != 0
  | .str s => s != ""

/-- A value is nullish when reading a property from it throws a TypeError. -/
def JSVal.nullish : JSVal → Bool
  | .undefined => true
  | .null => true
  | .bool _ => false
  | .num _ => false
  | .str _ => false

/-- Result of the handleReadyUp hook: a plain value or a promise that
resolves or rejects.  In the source, readyUp tests typeof handle.then,
which is defined exactly for promises; reading .then from undefined or
null throws a TypeError. -/
inductive HookRet where
  | val (v : JSVal)
  | promise (r : Except JSVal JSVal)
deriving Repr

/-- Rejection payload of handleTurnEnd: either an Error instance (the
source tests payload instanceof Error) or any other value, used as the
end cause. -/
inductive TEnd where
  | err
  | payload (v : Nat)
deriving Repr, DecidableEq

/-- The round object; game-defined extra fields are not modelled, only the
number the controller reads. -/
structure Round where
  number : Nat
deriving Repr, DecidableEq

/-- The turn object: number 0 with no player before the game starts. -/
structure Turn where
  number : Nat
  player_id : Option PId
deriving Repr, DecidableEq

/-- The recorded move envelope pushed onto the moves log. -/
structure MoveEnvelope where
  player_id : PId
  round : Nat
  turn : Nat
  payload : Nat
deriving Repr, DecidableEq

/-- Notifications the controller sends to the room collaborator. -/
inductive Event where
  | playerReady (pid : PId)
  | turnStart (round : Round) (turn : Turn)
  | moveAccepted (env : MoveEnvelope)
  | gameEnd (results : Nat)
deriving Repr, DecidableEq

/-- The mutable fields of a Game instance that the modelled operations
read or write, plus the log of broadcasts. -/
structure GState where
  players : List Player
  started : Bool
  moves : List MoveEnvelope
  round : Round
  turn : Turn
  maxRounds : Option Nat
  playerOrder : List PId
  endResults : Option Nat
  events : List Event
deriving Repr, DecidableEq

/-- The rule-set hooks a concrete game may implement.  Optional hooks are
Option-valued, mirroring the if(this.handleX) presence checks.  Hook
results are embedded by their resolution (handleRoundStart and handleEnd
are only ever awaited for a resolved value in the modelled flows). -/
structure GameHooks where
  handleReadyUp : Option (PId → JSVal → HookRet)
  handleMove : Nat → Except String Nat
  handleTurnEnd : Option (Option Player → Except TEnd Unit)
  handleRoundStart : Option (Round → Round)
  handleRoundEnd : Option (Round → Except Unit Unit)
  handleEnd : Option Nat → Nat

/-- Game.findPlayer: linear lookup by identifier with loose equality. -/
def findPlayer (st : GState) (id : PId) : Option Player :=
  st.players.find? (fun p => p._id == id)

/-- The player addressed by the current turn, as computed in nextTurn:
this.findPlayer(this.playerOrder[this.turn.number - 1]).  An out-of-range
index yields undefined, and findPlayer(undefined) finds nothing. -/
def currentTurnPlayer (st : GState) : Option Player :=
  (st.playerOrder[st.turn.number - 1]?).bind (findPlayer st)

/-- Game.onEnd: await handleEnd, record the results as endResults, and
broadcast the end notification (the internal end event for the room is
part of the same notification here). -/
def onEnd (g : GameHooks) (st : GState) (payload : Option Nat) : GState :=
  let results := g.handleEnd payload
  { st with endResults := some results
            events := st.events ++ [Event.gameEnd results] }

mutual

/-- Game.startRound: set the round object, let handleRoundStart enrich or
replace it when present, then start turn 1. -/
def startRound (g : GameHooks) : Nat → GState → Nat → GState
  | 0, st, _ => st
  | fuel + 1, st, n =>
    let st1 := { st with round := { number := n } }
    match g.handleRoundStart with
    | some f => startTurn g fuel { st1 with round := f st1.round } 1
    | none => startTurn g fuel st1 1

/-- Game.startTurn: resolve the player at playerOrder[turn - 1]; when no
player resolves, advance with the restart flag; otherwise set the turn
and broadcast it (handleTurnStart is a fire-and-forget notification with
no effect on the modelled state). -/
def startTurn (g : GameHooks) : Nat → GState → Nat → GState
  | 0, st, _ => st
  | fuel + 1, st, t =>
    match st.playerOrder[t - 1]? with
    | none => nextTurn g fuel st true
    | some pid =>
      match findPlayer st pid with
      | none => nextTurn g fuel st true
      | some p =>
        let st1 := { st with turn := { number := t, player_id := some p._id } }
        { st1 with events := st1.events ++ [Event.turnStart st1.round st1.turn] }

/-- Game.nextTurn: when not restarting and handleTurnEnd is present, await
it; on resolution advance; on rejection with a non-error payload run the
end sequence with that payload; on rejection with an Error the source only
logs it (console.log), so the state is returned unchanged. -/
def nextTurn (g : GameHooks) : Nat → GState → Bool → GState
  | 0, st, _ => st
  | fuel + 1, st, restart =>
    if restart then nextTurnExec g fuel st
    else
      match g.handleTurnEnd with
      | none => nextTurnExec g fuel st
      | some h =>
        match h (currentTurnPlayer st) with
        | .ok _ => nextTurnExec g fuel st
        | .error (.payload v) => onEnd g st (some v)
        | .error .err => st

/-- The executeNextTurn closure inside Game.nextTurn: step to the next
turn index, or to the next round past the end of the player order. -/
def nextTurnExec (g : GameHooks) : Nat → GState → GState
  | 0, st => st
  | fuel + 1, st =>
    if st.turn.number + 1 > st.playerOrder.length then nextRound g fuel st
    else startTurn g fuel st (st.turn.number + 1)

/-- Game.nextRound: when handleRoundEnd is present, await it; resolution
advances, rejection restarts the same round number. -/
def nextRound (g : GameHooks) : Nat → GState → GState
  | 0, st => st
  | fuel + 1, st =>
    match g.handleRoundEnd with
    | none => nextRoundExec g fuel st
    | some h =>
      match h st.round with
      | .ok _ => nextRoundExec g fuel st
      | .error _ => startRound g fuel st st.round.number

/-- The executeNextRound closure inside Game.nextRound: the source guard
is if(this.maxRounds && nextNum > this.maxRounds), so a null and a zero
maxRounds are both falsy and never end the game here. -/
def nextRoundExec (g : GameHooks) : Nat → GState → GState
  | 0, st => st
  | fuel + 1, st =>
    match st.maxRounds with
    | some m =>
      if m ≠ 0 ∧ st.round.number + 1 > m then onEnd g st none
      else startRound g fuel st (st.round.number + 1)
    | none => startRound g fuel st (st.round.number + 1)

end

/-- Game.start: mark the game started and begin round 1. -/
def start (g : GameHooks) (fuel : Nat) (st : GState) : GState :=
  startRound g fuel { st with started := true } 1

/-- Mark the ready flag on the first player carrying the identifier (the
source mutates the object returned by Array.prototype.find). -/
def markReady : List Player → PId → List Player
  | [], _ => []
  | p :: ps, id =>
    if p._id == id then { p with ready := true } :: ps
    else p :: markReady ps id

/-- Observable outcome of a readyUp call: a thrown TypeError, a plain
return value, or a returned promise that resolved or rejected. -/
inductive ReadyOutcome where
  | threw
  | ret (v : JSVal)
  | resolved (v : JSVal)
  | rejectedP (r : JSVal)
deriving Repr, DecidableEq

/-- The state update at the head of the executeReady closure inside
Game.readyUp: mark the player ready and broadcast the ready
notification. -/
def markStep (pid : PId) (s : GState) : GState :=
  { s with players := markReady s.players pid
           events := s.events ++ [Event.playerReady pid] }

/-- The executeReady closure inside Game.readyUp, hoisted to the top
level: mark the player ready, broadcast the ready notification, and start
the game when no player is left unready. -/
def executeReady (g : GameHooks) (fuel : Nat) (pid : PId) (s : GState) : GState :=
  if ((markStep pid s).players.filter (fun q => !q.ready)).length = 0 then
    start g fuel (markStep pid s)
  else markStep pid s

/-- Game.readyUp.  Returns false once started or when the player is
already ready; dereferencing player.ready after a failed findPlayer
throws a TypeError, as does reading handle.then when the hook returned
undefined or null. -/
def readyUp (g : GameHooks) (fuel : Nat) (st : GState) (pid : PId)
    (payload : JSVal) : ReadyOutcome × GState :=
  if st.started then (.ret (.bool false), st)
  else
    match findPlayer st pid with
    | none => (.threw, st)
    | some p =>
      if p.ready then (.ret (.bool false), st)
      else
        match g.handleReadyUp with
        | none => (.ret (.bool true), executeReady g fuel pid st)
        | some h =>
          match h pid payload with
          | .promise (Except.ok v) => (.resolved v, executeReady g fuel pid st)
          | .promise (Except.error r) => (.rejectedP r, st)
          | .val v =>
            if v.nullish then (.threw, st)
            else if v.truthy then (.ret v, executeReady g fuel pid st)
            else (.ret v, st)

/-- Result of a playerMove call: the rejection reason or the resolved
move envelope. -/
inductive MoveOutcome where
  | rejected (reason : String)
  | accepted (env : MoveEnvelope)
deriving Repr, DecidableEq

/-- The delegation tail of Game.playerMove: await handleMove; on
rejection propagate the reason with the state untouched; on resolution
record and broadcast the envelope and advance the turn. -/
def handleMoveBranch (g : GameHooks) (fuel : Nat) (st : GState) (pid : PId)
    (move : Nat) : MoveOutcome × GState :=
  match g.handleMove move with
  | .error r => (.rejected r, st)
  | .ok m =>
    let env : MoveEnvelope :=
      { player_id := pid, round := st.round.number
        turn := st.turn.number, payload := m }
    let st1 := { st with moves := st.moves ++ [env]
                         events := st.events ++ [Event.moveAccepted env] }
    (.accepted env, nextTurn g fuel st1 false)

/-- Game.playerMove: the three fail-fast guards in source order, then the
delegation to handleMove.  The submitting player object is represented by
its identifier, the only field the source reads. -/
def playerMove (g : GameHooks) (fuel : Nat) (st : GState) (pid : PId)
    (move : Nat) : MoveOutcome × GState :=
  if st.endResults.isSome then (.rejected "Game has ended.", st)
  else if st.turn.number = 0 then (.rejected "Game has not started.", st)
  else if st.turn.player_id != some pid then
    (.rejected "You are not allowed to send that right now.", st)
  else handleMoveBranch g fuel st pid move

/-- The helpers/shuffle swap step: exchange positions i and j.  The guard
on the lookups is never hit by shuffle, whose indices are in range. -/
def swapAt (l : List α) (i j : Nat) : List α :=
  match l[i]?, l[j]? with
  | some a, some b => (l.set i b).set j a
  | _, _ => l

/-- The helpers/shuffle loop, counting i down from the length; at loop
value i the source draws j = floor(random() * i), uniform on [0, i),
modelled by reducing the sampled value modulo i, and swaps positions
i - 1 and j. -/
def shuffleLoop (rand : Nat → Nat) : Nat → List α → List α
  | 0, l => l
  | i + 1, l => shuffleLoop rand i (swapAt l i (rand (i + 1) % (i + 1)))

/-- helpers/shuffle: Fisher-Yates over a copy of the input array. -/
def shuffle (rand : Nat → Nat) (l : List α) : List α :=
  shuffleLoop rand l.length l

/-- Argument of Game.setPlayerTurnOrder: an explicit array of identifiers,
the PLAYER_ORDER.RANDOM token, or any other token (the default branch). -/
inductive OrderArg where
  | explicitOrder (l : List PId)
  | random
  | defaultOrder
deriving Repr

/-- Game.setPlayerTurnOrder: an array is used verbatim; the RANDOM token
shuffles the player list; the default branch takes the player list as is;
the two token branches then project players to identifiers. -/
def setPlayerTurnOrder (rand : Nat → Nat) (st : GState) : OrderArg → GState
  | .explicitOrder l => { st with playerOrder := l }
  | .random => { st with playerOrder := (shuffle rand st.players).map Player._id }
  | .defaultOrder => { st with playerOrder := st.players.map Player._id }

/-- The game state built by the Game constructor plus init: players
created from the roster, nothing started, playerOrder projected from the
roster. -/
def mkGame (ids : List PId) : GState :=
  { players := ids.map (fun id => { _id := id, ready := false })
    started := false
    moves := []
    round := { number := 0 }
    turn := { number := 0, player_id := none }
    maxRounds := none
    playerOrder := ids
    endResults := none
    events := [] }

/-- The turn-addressing invariant: an active turn addresses the player at
its index in the player order. -/
def turnInv (st : GState) : Prop :=
  0 < st.turn.number → st.turn.player_id = st.playerOrder[st.turn.number - 1]?

instance (st : GState) : Decidable (turnInv st) := by
  unfold turnInv; infer_instance

/-- Fields preserved by the internal advancement chain, together with
preservation of the turn-addressing invariant. -/
def Pres (st st' : GState) : Prop :=
  st'.players = st.players ∧ st'.started = st.started ∧
  st'.playerOrder = st.playerOrder ∧ st'.moves = st.moves ∧
  st'.maxRounds = st.maxRounds ∧ (turnInv st → turnInv st')

/-- States reachable from a fresh game by the externally triggered
operations and the internal advancement entry points, excluding
setPlayerTurnOrder. -/
inductive Reach (g : GameHooks) : GState → Prop where
  | init (ids : List PId) : Reach g (mkGame ids)
  | ready (st : GState) (fuel : Nat) (pid : PId) (payload : JSVal) :
      Reach g st → Reach g (readyUp g fuel st pid payload).2
  | move (st : GState) (fuel : Nat) (pid : PId) (m : Nat) :
      Reach g st → Reach g (playerMove g fuel st pid m).2
  | turnAdv (st : GState) (fuel : Nat) (b : Bool) :
      Reach g st → Reach g (nextTurn g fuel st b)
  | roundAdv (st : GState) (fuel : Nat) :
      Reach g st → Reach g (nextRound g fuel st)

/-- States reachable when setPlayerTurnOrder is admitted as an operation
as well, as the turn-order sentence of the specification has it. -/
inductive ReachX (g : GameHooks) : GState → Prop where
  | init (ids : List PId) : ReachX g (mkGame ids)
  | ready (st : GState) (fuel : Nat) (pid : PId) (payload : JSVal) :
      ReachX g st → ReachX g (readyUp g fuel st pid payload).2
  | move (st : GState) (fuel : Nat) (pid : PId) (m : Nat) :
      ReachX g st → ReachX g (playerMove g fuel st pid m).2
  | turnAdv (st : GState) (fuel : Nat) (b : Bool) :
      ReachX g st → ReachX g (nextTurn g fuel st b)
  | roundAdv (st : GState) (fuel : Nat) :
      ReachX g st → ReachX g (nextRound g fuel st)
  | setOrder (st : GState) (rand : Nat → Nat) (arg : OrderArg) :
      ReachX g st → ReachX g (setPlayerTurnOrder rand st arg)

/-- A minimal rule set: no optional hooks, every move accepted unchanged,
end results fixed at 0. -/
def plainHooks : GameHooks :=
  { handleReadyUp := none
    handleMove := fun m => .ok m
    handleTurnEnd := none
    handleRoundStart := none
    handleRoundEnd := none
    handleEnd := fun _ => 0 }

/-- A two-player game in round 1, turn 1 of player a. -/
def liveSt : GState :=
  { players := [{ _id := "a", ready := true }, { _id := "b", ready := true }]
    started := true
    moves := []
    round := { number := 1 }
    turn := { number := 1, player_id := some "a" }
    maxRounds := none
    playerOrder := ["a", "b"]
    endResults := none
    events := [] }

/-- The same game after its end results have been recorded. -/
def endedSt : GState := { liveSt with endResults := some 0 }

/-- The number of players still unready, the quantity the start condition
inside executeReady tests against zero. -/
def unreadyCount (l : List Player) : Nat :=
  (l.filter (fun q => !q.ready)).length

/-- The ready flag of the first player carrying the identifier. -/
def lookupReady (l : List Player) (pid : PId) : Option Bool :=
  (l.find? (fun q => q._id == pid)).map Player.ready

/-- A sequence of readyUp submissions, one per identifier in the list,
keeping only the state. -/
def runReadyUps (g : GameHooks) (fuel : Nat) (payload : JSVal) :
    GState → List PId → GState
  | st, [] => st
  | st, pid :: pids =>
    runReadyUps g fuel payload (readyUp g fuel st pid payload).2 pids

/-- A rule set whose handleTurnEnd raises a win signal and whose
handleEnd echoes the cause. -/
def winHooks : GameHooks :=
  { plainHooks with handleTurnEnd := some (fun _ => .error (.payload 42))
                    handleEnd := fun p => p.getD 0 }

/-- A rule set whose handleTurnEnd rejects with an internal Error. -/
def errTurnHooks : GameHooks :=
  { plainHooks with handleTurnEnd := some (fun _ => .error .err) }

/-- A rule set whose handleTurnEnd resolves. -/
def okTurnHooks : GameHooks :=
  { plainHooks with handleTurnEnd := some (fun _ => .ok ()) }

/-- A rule set whose handleRoundEnd rejects, restarting the round. -/
def roundEndRejHooks : GameHooks :=
  { plainHooks with handleRoundEnd := some (fun _ => .error ()) }

/-- A rule set whose handleRoundEnd resolves. -/
def roundEndOkHooks : GameHooks :=
  { plainHooks with handleRoundEnd := some (fun _ => .ok ()) }

/-- A rule set whose handleReadyUp returns undefined synchronously. -/
def voidReadyHooks : GameHooks :=
  { plainHooks with handleReadyUp := some (fun _ _ => .val .undefined) }

/-- A rule set whose handleReadyUp returns true synchronously. -/
def trueReadyHooks : GameHooks :=
  { plainHooks with handleReadyUp := some (fun _ _ => .val (.bool true)) }

/-- A two-player game brought to round 1, turn 1 by two ready-ups. -/
def c7Before : GState :=
  (readyUp plainHooks 5
    (readyUp plainHooks 5 (mkGame ["a", "b"]) "a" .undefined).2
    "b" .undefined).2

/-- The same game after an explicit turn-order change during the active
turn. -/
def c7After : GState :=
  setPlayerTurnOrder (fun _ => 0) c7Before (.explicitOrder ["b", "a"])

/- ------------------------------------------------------------------ -/
/- Theorems                                                           -/
/- ------------------------------------------------------------------ -/

theorem presRfl (st : GState) : Pres st st := ⟨rfl, rfl, rfl, rfl, rfl, id⟩

theorem Pres.trans {a b c : GState} (h1 : Pres a b) (h2 : Pres b c) :
    Pres a c := by
  obtain ⟨p1, s1, o1, m1, r1, i1⟩ := h1
  obtain ⟨p2, s2, o2, m2, r2, i2⟩ := h2
  exact ⟨p2.trans p1, s2.trans s1, o2.trans o1, m2.trans m1, r2.trans r1,
    fun h => i2 (i1 h)⟩

/-- A state update that keeps the turn and the player order keeps the
turn-addressing invariant; with the other fields also kept it is a Pres. -/
theorem pres_same_turn {st st' : GState} (hp : st'.players = st.players)
    (hs : st'.started = st.started) (ho : st'.playerOrder = st.playerOrder)
    (hm : st'.moves = st.moves) (hmr : st'.maxRounds = st.maxRounds)
    (ht : st'.turn = st.turn) : Pres st st' := by
  refine ⟨hp, hs, ho, hm, hmr, fun hInv => ?_⟩
  unfold turnInv at *
  rw [ht, ho]
  exact hInv

theorem findPlayer_id {st : GState} {pid : PId} {p : Player}
    (h : findPlayer st pid = some p) : p._id = pid := by
  unfold findPlayer at h
  have h2 := List.find?_some h
  simpa [beq_iff_eq] using h2

theorem onEnd_pres (g : GameHooks) (st : GState) (p : Option Nat) :
    Pres st (onEnd g st p) :=
  pres_same_turn rfl rfl rfl rfl rfl rfl

/-- The round and turn advancement chain preserves the players, the
started flag, the player order, the moves log, maxRounds, and the
turn-addressing invariant, at every fuel. -/
theorem lifecycle_pres (g : GameHooks) : ∀ fuel : Nat,
    (∀ st n, Pres st (startRound g fuel st n)) ∧
    (∀ st t, Pres st (startTurn g fuel st t)) ∧
    (∀ st b, Pres st (nextTurn g fuel st b)) ∧
    (∀ st, Pres st (nextTurnExec g fuel st)) ∧
    (∀ st, Pres st (nextRound g fuel st)) ∧
    (∀ st, Pres st (nextRoundExec g fuel st)) := by
  intro fuel
  induction fuel with
  | zero =>
    exact ⟨fun st _ => presRfl st, fun st _ => presRfl st,
      fun st _ => presRfl st, fun st => presRfl st,
      fun st => presRfl st, fun st => presRfl st⟩
  | succ fuel ih =>
    obtain ⟨ihSR, ihST, ihNT, ihNTE, ihNR, ihNRE⟩ := ih
    have hSR : ∀ st n, Pres st (startRound g (fuel + 1) st n) := by
      intro st n
      have base : ∀ r : Round, Pres st { st with round := r } := fun r =>
        pres_same_turn rfl rfl rfl rfl rfl rfl
      rcases hrs : g.handleRoundStart with _ | f
      · have : startRound g (fuel + 1) st n =
            startTurn g fuel { st with round := { number := n } } 1 := by
          simp only [startRound, hrs]
        rw [this]
        exact (base _).trans (ihST _ 1)
      · have : startRound g (fuel + 1) st n =
            startTurn g fuel { st with round := f { number := n } } 1 := by
          simp only [startRound, hrs]
        rw [this]
        exact (base _).trans (ihST _ 1)
    have hST : ∀ st t, Pres st (startTurn g (fuel + 1) st t) := by
      intro st t
      rcases hget : st.playerOrder[t - 1]? with _ | pid
      · have : startTurn g (fuel + 1) st t = nextTurn g fuel st true := by
          simp only [startTurn, hget]
        rw [this]
        exact ihNT st true
      · rcases hfind : findPlayer st pid with _ | p
        · have : startTurn g (fuel + 1) st t = nextTurn g fuel st true := by
            simp only [startTurn, hget, hfind]
          rw [this]
          exact ihNT st true
        · have hres : startTurn g (fuel + 1) st t =
              { st with turn := { number := t, player_id := some p._id }
                        events := st.events ++
                          [Event.turnStart st.round
                            { number := t, player_id := some p._id }] } := by
            simp only [startTurn, hget, hfind]
          rw [hres]
          refine ⟨rfl, rfl, rfl, rfl, rfl, fun _ => ?_⟩
          intro _
          show some p._id = st.playerOrder[t - 1]?
          rw [hget, findPlayer_id hfind]
    have hNT : ∀ st b, Pres st (nextTurn g (fuel + 1) st b) := by
      intro st b
      cases b
      · rcases hte : g.handleTurnEnd with _ | h
        · have : nextTurn g (fuel + 1) st false = nextTurnExec g fuel st := by
            simp only [nextTurn, hte, Bool.false_eq_true, if_false]
          rw [this]
          exact ihNTE st
        · rcases hcall : h (currentTurnPlayer st) with e | u
          · rcases e with _ | v
            · have : nextTurn g (fuel + 1) st false = st := by
                simp only [nextTurn, hte, hcall, Bool.false_eq_true, if_false]
              rw [this]
              exact presRfl st
            · have : nextTurn g (fuel + 1) st false = onEnd g st (some v) := by
                simp only [nextTurn, hte, hcall, Bool.false_eq_true, if_false]
              rw [this]
              exact onEnd_pres g st (some v)
          · have : nextTurn g (fuel + 1) st false = nextTurnExec g fuel st := by
              simp only [nextTurn, hte, hcall, Bool.false_eq_true, if_false]
            rw [this]
            exact ihNTE st
      · have : nextTurn g (fuel + 1) st true = nextTurnExec g fuel st := by
          simp only [nextTurn, if_true]
        rw [this]
        exact ihNTE st
    have hNTE : ∀ st, Pres st (nextTurnExec g (fuel + 1) st) := by
      intro st
      by_cases hlen : st.turn.number + 1 > st.playerOrder.length
      · have : nextTurnExec g (fuel + 1) st = nextRound g fuel st := by
          simp only [nextTurnExec, if_pos hlen]
        rw [this]
        exact ihNR st
      · have : nextTurnExec g (fuel + 1) st =
            startTurn g fuel st (st.turn.number + 1) := by
          simp only [nextTurnExec, if_neg hlen]
        rw [this]
        exact ihST st _
    have hNRE : ∀ st, Pres st (nextRoundExec g (fuel + 1) st) := by
      intro st
      rcases hmr : st.maxRounds with _ | m
      · have : nextRoundExec g (fuel + 1) st =
            startRound g fuel st (st.round.number + 1) := by
          simp only [nextRoundExec, hmr]
        rw [this]
        exact ihSR st _
      · by_cases hcond : m ≠ 0 ∧ st.round.number + 1 > m
        · have : nextRoundExec g (fuel + 1) st = onEnd g st none := by
            simp only [nextRoundExec, hmr, if_pos hcond]
          rw [this]
          exact onEnd_pres g st none
        · have : nextRoundExec g (fuel + 1) st =
              startRound g fuel st (st.round.number + 1) := by
            simp only [nextRoundExec, hmr, if_neg hcond]
          rw [this]
          exact ihSR st _
    have hNR : ∀ st, Pres st (nextRound g (fuel + 1) st) := by
      intro st
      rcases hre : g.handleRoundEnd with _ | h
      · have : nextRound g (fuel + 1) st = nextRoundExec g fuel st := by
          simp only [nextRound, hre]
        rw [this]
        exact ihNRE st
      · rcases hcall : h st.round with e | u
        · have : nextRound g (fuel + 1) st =
              startRound g fuel st st.round.number := by
            simp only [nextRound, hre, hcall]
          rw [this]
          exact ihSR st _
        · have : nextRound g (fuel + 1) st = nextRoundExec g fuel st := by
            simp only [nextRound, hre, hcall]
          rw [this]
          exact ihNRE st
    exact ⟨hSR, hST, hNT, hNTE, hNR, hNRE⟩

/-- C1: for every game state and every playerMove call, the call fails
fast in this priority order: with endResults set it rejects with exactly
"Game has ended."; else with turn.number = 0 it rejects with exactly
"Game has not started."; else with a submitter other than turn.player_id
it rejects with exactly "You are not allowed to send that right now.";
only otherwise does it run the handleMove delegation branch. -/
theorem C1_move_guard_order (g : GameHooks) (fuel : Nat) (st : GState)
    (pid : PId) (m : Nat) :
    (st.endResults.isSome →
      playerMove g fuel st pid m = (.rejected "Game has ended.", st)) ∧
    (st.endResults = none → st.turn.number = 0 →
      playerMove g fuel st pid m = (.rejected "Game has not started.", st)) ∧
    (st.endResults = none → st.turn.number ≠ 0 → st.turn.player_id ≠ some pid →
      playerMove g fuel st pid m =
        (.rejected "You are not allowed to send that right now.", st)) ∧
    (st.endResults = none → st.turn.number ≠ 0 → st.turn.player_id = some pid →
      playerMove g fuel st pid m = handleMoveBranch g fuel st pid m) := by
  refine ⟨fun h1 => ?_, fun h1 h2 => ?_, fun h1 h2 h3 => ?_, fun h1 h2 h3 => ?_⟩
  · simp [playerMove, h1]
  · simp [playerMove, h1, h2]
  · simp [playerMove, h1, h2, h3, bne_iff_ne]
  · simp [playerMove, h1, h2, h3, bne_iff_ne]

/-- Witness for C1 at concrete states covering all four branches. -/
theorem C1_move_guard_order_witness :
    playerMove plainHooks 3 endedSt "a" 0 = (.rejected "Game has ended.", endedSt) ∧
    playerMove plainHooks 3 (mkGame ["a", "b"]) "a" 0 =
      (.rejected "Game has not started.", mkGame ["a", "b"]) ∧
    playerMove plainHooks 3 liveSt "b" 0 =
      (.rejected "You are not allowed to send that right now.", liveSt) ∧
    playerMove plainHooks 3 liveSt "a" 0 = handleMoveBranch plainHooks 3 liveSt "a" 0 :=
  ⟨(C1_move_guard_order plainHooks 3 endedSt "a" 0).1 (by decide),
   (C1_move_guard_order plainHooks 3 (mkGame ["a", "b"]) "a" 0).2.1 (by decide) (by decide),
   (C1_move_guard_order plainHooks 3 liveSt "b" 0).2.2.1 (by decide) (by decide) (by decide),
   (C1_move_guard_order plainHooks 3 liveSt "a" 0).2.2.2 (by decide) (by decide) (by decide)⟩

/-- C4: every failing playerMove is atomic: any rejected call leaves the
state unchanged, and when the guards pass and handleMove rejects, the
rejection reason is propagated verbatim with the state unchanged. -/
theorem C4_move_rejection_atomic (g : GameHooks) (fuel : Nat) (st : GState)
    (pid : PId) (m : Nat) (r : String) :
    ((playerMove g fuel st pid m).1 = .rejected r →
      (playerMove g fuel st pid m).2 = st) ∧
    (st.endResults = none → st.turn.number ≠ 0 → st.turn.player_id = some pid →
      g.handleMove m = .error r →
      playerMove g fuel st pid m = (.rejected r, st)) := by
  constructor
  · intro h
    unfold playerMove handleMoveBranch at *
    split_ifs at h ⊢ <;> try rfl
    rcases hm : g.handleMove m with e | v
    · rfl
    · rw [hm] at h; simp at h
  · intro h1 h2 h3 hm
    simp [playerMove, handleMoveBranch, h1, h2, h3, hm]

/-- Witness for C4: a rule rejection at a concrete live state. -/
theorem C4_move_rejection_atomic_witness :
    playerMove
      { plainHooks with handleMove := fun _ => .error "Invalid guess!" }
      3 liveSt "a" 0 = (.rejected "Invalid guess!", liveSt) :=
  (C4_move_rejection_atomic
      { plainHooks with handleMove := fun _ => .error "Invalid guess!" }
      3 liveSt "a" 0 "Invalid guess!").2
    (by decide) (by decide) (by decide) rfl

/-- Every readyUp call either leaves the state unchanged or runs the
executeReady step. -/
theorem readyUp_state_cases (g : GameHooks) (fuel : Nat) (st : GState)
    (pid : PId) (payload : JSVal) :
    (readyUp g fuel st pid payload).2 = st ∨
    (readyUp g fuel st pid payload).2 = executeReady g fuel pid st := by
  unfold readyUp
  repeat' split
  all_goals first
    | exact Or.inl rfl
    | exact Or.inr rfl

theorem executeReady_players (g : GameHooks) (fuel : Nat) (pid : PId)
    (s : GState) :
    (executeReady g fuel pid s).players = markReady s.players pid := by
  unfold executeReady
  split
  · have h := ((lifecycle_pres g fuel).1
      { markStep pid s with started := true } 1).1
    simpa [start, markStep] using h
  · simp [markStep]

theorem executeReady_started (g : GameHooks) (fuel : Nat) (pid : PId)
    (s : GState) :
    (executeReady g fuel pid s).started =
      (if unreadyCount (markReady s.players pid) = 0 then true
       else s.started) := by
  unfold executeReady
  split
  · next hc =>
    rw [if_pos (by simpa [unreadyCount, markStep] using hc)]
    have h := ((lifecycle_pres g fuel).1
      { markStep pid s with started := true } 1).2.1
    simpa [start, markStep] using h
  · next hc =>
    rw [if_neg (by simpa [unreadyCount, markStep] using hc)]
    simp [markStep]

theorem executeReady_turnInv (g : GameHooks) (fuel : Nat) (pid : PId)
    (s : GState) (h : turnInv s) : turnInv (executeReady g fuel pid s) := by
  unfold executeReady
  split
  · have hp := ((lifecycle_pres g fuel).1
      { markStep pid s with started := true } 1).2.2.2.2.2
    refine hp ?_
    intro h0
    exact h h0
  · intro h0
    exact h h0

theorem readyUp_turnInv (g : GameHooks) (fuel : Nat) (st : GState)
    (pid : PId) (payload : JSVal) (h : turnInv st) :
    turnInv (readyUp g fuel st pid payload).2 := by
  rcases readyUp_state_cases g fuel st pid payload with he | he <;> rw [he]
  · exact h
  · exact executeReady_turnInv g fuel pid st h

theorem nextTurn_turnInv (g : GameHooks) (fuel : Nat) (st : GState)
    (b : Bool) (h : turnInv st) : turnInv (nextTurn g fuel st b) :=
  ((lifecycle_pres g fuel).2.2.1 st b).2.2.2.2.2 h

theorem playerMove_turnInv (g : GameHooks) (fuel : Nat) (st : GState)
    (pid : PId) (m : Nat) (h : turnInv st) :
    turnInv (playerMove g fuel st pid m).2 := by
  unfold playerMove handleMoveBranch
  split_ifs <;> try exact h
  rcases g.handleMove m with e | v
  · exact h
  · exact nextTurn_turnInv g fuel _ false (fun h0 => h h0)

/-- C10: calling readyUp before the game has started with an identifier
absent from players does not return false and marks nobody ready:
findPlayer comes back empty, readyUp dereferences .ready on it without a
check, and the call throws a TypeError, leaving the state unchanged. -/
theorem C10_ready_unknown_player_throws (g : GameHooks) (fuel : Nat)
    (st : GState) (pid : PId) (payload : JSVal)
    (hns : st.started = false) (hfp : findPlayer st pid = none) :
    readyUp g fuel st pid payload = (.threw, st) := by
  simp [readyUp, hns, hfp]

/-- Witness for C10 at a concrete fresh game and unknown identifier. -/
theorem C10_ready_unknown_player_throws_witness :
    readyUp plainHooks 3 (mkGame ["a", "b"]) "zzz" .undefined =
      (.threw, mkGame ["a", "b"]) :=
  C10_ready_unknown_player_throws plainHooks 3 (mkGame ["a", "b"]) "zzz"
    .undefined (by decide) (by decide)

theorem markReady_lookup_self (l : List Player) (pid : PId) (b : Bool)
    (h : lookupReady l pid = some b) :
    lookupReady (markReady l pid) pid = some true := by
  induction l with
  | nil => simp [lookupReady] at h
  | cons p ps ih =>
    by_cases hp : (p._id == pid) = true
    · unfold markReady
      rw [if_pos hp]
      unfold lookupReady
      simp [List.find?_cons, hp]
    · have hp' : (p._id == pid) = false := by simpa using hp
      unfold markReady
      rw [if_neg hp]
      unfold lookupReady at h ⊢
      simp only [List.find?_cons, hp', Bool.false_eq_true, if_false] at h ⊢
      exact ih h

theorem markReady_lookup_other (l : List Player) (pid pid' : PId)
    (hne : pid' ≠ pid) :
    lookupReady (markReady l pid) pid' = lookupReady l pid' := by
  induction l with
  | nil => simp [markReady]
  | cons p ps ih =>
    by_cases hp : (p._id == pid) = true
    · have hp' : (p._id == pid') = false := by
        have heq : p._id = pid := by simpa using hp
        simp only [beq_eq_false_iff_ne, ne_eq, heq]
        exact fun hc => hne hc.symm
      unfold markReady
      rw [if_pos hp]
      unfold lookupReady
      simp only [List.find?_cons, hp', Bool.false_eq_true, if_false]
    · have hpf : (p._id == pid) = false := by simpa using hp
      unfold markReady
      rw [if_neg hp]
      unfold lookupReady at ih ⊢
      simp only [List.find?_cons]
      rcases hp' : (p._id == pid') with _ | _
      · simpa using ih
      · simp

/-- C8 (amended): when handleReadyUp is present and returns a non-promise
value, a truthy return marks the submitter ready and the value is handed
back; a falsy non-nullish return (false, 0, empty string) is handed back
with the flag left unset; a void (undefined) or null return throws a
TypeError before any flag update, because readyUp reads .then off the
returned value. -/
theorem C8_sync_ready_hook (g : GameHooks) (fuel : Nat) (st : GState)
    (pid : PId) (payload : JSVal) (p : Player)
    (h : PId → JSVal → HookRet) (v : JSVal)
    (hns : st.started = false) (hfp : findPlayer st pid = some p)
    (hnr : p.ready = false) (hh : g.handleReadyUp = some h)
    (hv : h pid payload = .val v) :
    (v.nullish = true → readyUp g fuel st pid payload = (.threw, st)) ∧
    (v.truthy = true →
      readyUp g fuel st pid payload = (.ret v, executeReady g fuel pid st) ∧
      lookupReady (readyUp g fuel st pid payload).2.players pid = some true) ∧
    (v.nullish = false → v.truthy = false →
      readyUp g fuel st pid payload = (.ret v, st)) := by
  have hnull : v.truthy = true → v.nullish = false := by
    cases v <;> simp [JSVal.truthy, JSVal.nullish]
  refine ⟨fun h1 => ?_, fun h1 => ⟨?_, ?_⟩, fun h1 h2 => ?_⟩
  · simp [readyUp, hns, hfp, hnr, hh, hv, h1]
  · simp [readyUp, hns, hfp, hnr, hh, hv, hnull h1, h1]
  · have heq : (readyUp g fuel st pid payload).2 = executeReady g fuel pid st := by
      simp [readyUp, hns, hfp, hnr, hh, hv, hnull h1, h1]
    rw [heq, executeReady_players]
    have hlook : lookupReady st.players pid = some false := by
      unfold lookupReady
      unfold findPlayer at hfp
      rw [hfp]
      simp [hnr]
    exact markReady_lookup_self st.players pid false hlook
  · simp [readyUp, hns, hfp, hnr, hh, hv, h1, h2]

/-- Witness for C8 with a hook returning true at a fresh two-player
game. -/
theorem C8_sync_ready_hook_witness :
    readyUp trueReadyHooks 3 (mkGame ["a", "b"]) "a" (.num 1) =
      (.ret (.bool true), executeReady trueReadyHooks 3 "a" (mkGame ["a", "b"])) ∧
    lookupReady (readyUp trueReadyHooks 3 (mkGame ["a", "b"]) "a" (.num 1)).2.players
      "a" = some true :=
  (C8_sync_ready_hook trueReadyHooks 3 (mkGame ["a", "b"]) "a" (.num 1)
    { _id := "a", ready := false } (fun _ _ => .val (.bool true)) (.bool true)
    (by decide) (by decide) rfl rfl rfl).2.1 rfl

/-- Counterexample to C8 as stated: a void (undefined) synchronous return
from handleReadyUp does not mark the player ready and hands nothing back;
the call throws a TypeError and leaves the flag unset. -/
theorem C8_sync_ready_hook_counterexample :
    readyUp voidReadyHooks 3 (mkGame ["a", "b"]) "a" (.num 1) =
      (.threw, mkGame ["a", "b"]) ∧
    lookupReady (readyUp voidReadyHooks 3 (mkGame ["a", "b"]) "a" (.num 1)).2.players
      "a" = some false := by
  constructor <;> decide

/-- C2: a non-error rejection payload from handleTurnEnd during play runs
the end sequence with that payload: the new state is exactly onEnd with
the payload, endResults becomes the resolved value of handleEnd, the end
notification is broadcast, and every subsequent playerMove rejects with
"Game has ended.". -/
theorem C2_win_signal_ends_game (g : GameHooks) (fuel : Nat) (st : GState)
    (h : Option Player → Except TEnd Unit) (v : Nat)
    (hte : g.handleTurnEnd = some h)
    (hrej : h (currentTurnPlayer st) = .error (.payload v)) :
    nextTurn g (fuel + 1) st false = onEnd g st (some v) ∧
    (nextTurn g (fuel + 1) st false).endResults = some (g.handleEnd (some v)) ∧
    Event.gameEnd (g.handleEnd (some v)) ∈ (nextTurn g (fuel + 1) st false).events ∧
    ∀ (fuel2 : Nat) (pid : PId) (m : Nat),
      playerMove g fuel2 (nextTurn g (fuel + 1) st false) pid m =
        (.rejected "Game has ended.", nextTurn g (fuel + 1) st false) := by
  have heq : nextTurn g (fuel + 1) st false = onEnd g st (some v) := by
    simp only [nextTurn, hte, hrej, Bool.false_eq_true, if_false]
  refine ⟨heq, ?_, ?_, ?_⟩
  · rw [heq]; simp [onEnd]
  · rw [heq]; simp [onEnd]
  · intro fuel2 pid m
    rw [heq]
    simp [playerMove, onEnd]

/-- Witness for C2: a concrete win signal at the live two-player game. -/
theorem C2_win_signal_ends_game_witness :
    (nextTurn winHooks 3 liveSt false).endResults = some 42 ∧
    playerMove winHooks 3 (nextTurn winHooks 3 liveSt false) "b" 0 =
      (.rejected "Game has ended.", nextTurn winHooks 3 liveSt false) := by
  have h := C2_win_signal_ends_game winHooks 2 liveSt
    (fun _ => .error (.payload 42)) 42 rfl rfl
  exact ⟨h.2.1, h.2.2.2 3 "b" 0⟩

/-- C3 (amended): an Error-typed rejection from handleTurnEnd is logged
and swallowed, but the game does not advance: the rejected turn stays
active and the state is returned unchanged. -/
theorem C3_error_rejection_stalls (g : GameHooks) (fuel : Nat) (st : GState)
    (h : Option Player → Except TEnd Unit)
    (hte : g.handleTurnEnd = some h)
    (hrej : h (currentTurnPlayer st) = .error .err) :
    nextTurn g (fuel + 1) st false = st := by
  simp only [nextTurn, hte, hrej, Bool.false_eq_true, if_false]

/-- Witness for C3 at the live two-player game. -/
theorem C3_error_rejection_stalls_witness :
    nextTurn errTurnHooks 5 liveSt false = liveSt :=
  C3_error_rejection_stalls errTurnHooks 4 liveSt
    (fun _ => .error .err) rfl rfl

/-- Counterexample to C3 as stated: with handleTurnEnd rejecting with an
Error at the live game, the catch branch only logs, so the state is
unchanged and the turn stays at 1; had handleTurnEnd resolved, the next
turn (number 2) would have been started. -/
theorem C3_error_rejection_stalls_counterexample :
    nextTurn errTurnHooks 5 liveSt false = liveSt ∧
    (nextTurn errTurnHooks 5 liveSt false).turn.number = 1 ∧
    (nextTurn okTurnHooks 5 liveSt false).turn.number = 2 := by
  refine ⟨?_, ?_, ?_⟩ <;> decide

/-- When the player at the requested index resolves, startTurn sets the
turn and broadcasts it. -/
theorem startTurn_set (g : GameHooks) (fuel : Nat) (st : GState) (t : Nat)
    (pid : PId) (p : Player)
    (hget : st.playerOrder[t - 1]? = some pid)
    (hfind : findPlayer st pid = some p) :
    startTurn g (fuel + 1) st t =
      { st with turn := { number := t, player_id := some p._id }
                events := st.events ++
                  [Event.turnStart st.round
                    { number := t, player_id := some p._id }] } := by
  simp only [startTurn, hget, hfind]

/-- When the first player of the order resolves and handleRoundStart is
absent or preserves the round number, startRound at n yields round n,
turn 1. -/
theorem startRound_effects (g : GameHooks) (fuel : Nat) (st : GState)
    (n : Nat) (pid : PId) (p : Player)
    (hrs : ∀ f, g.handleRoundStart = some f → ∀ r, (f r).number = r.number)
    (hget : st.playerOrder[0]? = some pid)
    (hfind : findPlayer st pid = some p) :
    (startRound g (fuel + 2) st n).round.number = n ∧
    (startRound g (fuel + 2) st n).turn = { number := 1, player_id := some p._id } := by
  rcases hh : g.handleRoundStart with _ | f
  · have heq : startRound g (fuel + 2) st n =
        startTurn g (fuel + 1) { st with round := { number := n } } 1 := by
      simp only [startRound, hh]
    rw [heq, startTurn_set g fuel _ 1 pid p (by simpa using hget)
      (by simpa [findPlayer] using hfind)]
    exact ⟨rfl, rfl⟩
  · have heq : startRound g (fuel + 2) st n =
        startTurn g (fuel + 1) { st with round := f { number := n } } 1 := by
      simp only [startRound, hh]
    rw [heq, startTurn_set g fuel _ 1 pid p (by simpa using hget)
      (by simpa [findPlayer] using hfind)]
    exact ⟨hrs f hh { number := n }, rfl⟩

/-- C6 (amended): when handleRoundEnd rejects at round n, the controller
restarts the same round: it re-enters startRound with the identical
number, so round.number stays n and the turn counter is reset to 1; when
handleRoundEnd resolves, the next round number is n + 1 unless maxRounds
is set to a nonzero bound that n + 1 exceeds, in which case the game ends
instead (the source treats a maxRounds of 0 as unset).  The player
resolution and round-number hypotheses keep the started turn honest. -/
theorem C6_round_advancement (g : GameHooks) (fuel : Nat) (st : GState)
    (h : Round → Except Unit Unit) (pid : PId) (p : Player)
    (hre : g.handleRoundEnd = some h)
    (hrs : ∀ f, g.handleRoundStart = some f → ∀ r, (f r).number = r.number)
    (hget : st.playerOrder[0]? = some pid)
    (hfind : findPlayer st pid = some p) :
    (h st.round = .error () →
      nextRound g (fuel + 4) st = startRound g (fuel + 3) st st.round.number ∧
      (nextRound g (fuel + 4) st).round.number = st.round.number ∧
      (nextRound g (fuel + 4) st).turn.number = 1) ∧
    (h st.round = .ok () →
      (∀ m, st.maxRounds = some m → m ≠ 0 → st.round.number + 1 > m →
        nextRound g (fuel + 4) st = onEnd g st none) ∧
      ((st.maxRounds = none ∨
          ∃ m, st.maxRounds = some m ∧ (m = 0 ∨ st.round.number + 1 ≤ m)) →
        (nextRound g (fuel + 4) st).round.number = st.round.number + 1 ∧
        (nextRound g (fuel + 4) st).turn.number = 1)) := by
  constructor
  · intro herr
    have heq : nextRound g (fuel + 4) st =
        startRound g (fuel + 3) st st.round.number := by
      simp only [nextRound, hre, herr]
    have heff := startRound_effects g (fuel + 1) st st.round.number pid p hrs hget hfind
    refine ⟨heq, ?_, ?_⟩
    · rw [heq]; exact heff.1
    · rw [heq, heff.2]
  · intro hok
    have heq : nextRound g (fuel + 4) st = nextRoundExec g (fuel + 3) st := by
      simp only [nextRound, hre, hok]
    constructor
    · intro m hm hm0 hgt
      rw [heq]
      simp only [nextRoundExec, hm]
      rw [if_pos ⟨hm0, hgt⟩]
    · intro hcase
      have heff := startRound_effects g fuel st (st.round.number + 1) pid p hrs hget hfind
      have heq2 : nextRoundExec g (fuel + 3) st =
          startRound g (fuel + 2) st (st.round.number + 1) := by
        rcases hcase with hm | ⟨m, hm, hc⟩
        · simp only [nextRoundExec, hm]
        · simp only [nextRoundExec, hm]
          rw [if_neg ?cond]
          case cond =>
            rintro ⟨hm0, hgt⟩
            rcases hc with hc | hc
            · exact hm0 hc
            · omega
      rw [heq, heq2]
      exact ⟨heff.1, by rw [heff.2]⟩

/-- Witness for C6: the rejecting rule set restarts round 1 of the live
game with the turn reset to 1, and the resolving rule set advances it to
round 2, turn 1. -/
theorem C6_round_advancement_witness :
    (nextRound roundEndRejHooks 5 liveSt).round.number = 1 ∧
    (nextRound roundEndRejHooks 5 liveSt).turn.number = 1 ∧
    (nextRound roundEndOkHooks 5 liveSt).round.number = 2 ∧
    (nextRound roundEndOkHooks 5 liveSt).turn.number = 1 := by
  have hrej := C6_round_advancement roundEndRejHooks 1 liveSt
    (fun _ => .error ()) "a" { _id := "a", ready := true } rfl
    (fun f hf => by simp [roundEndRejHooks, plainHooks] at hf)
    (by decide) (by decide)
  have hok := C6_round_advancement roundEndOkHooks 1 liveSt
    (fun _ => .ok ()) "a" { _id := "a", ready := true } rfl
    (fun f hf => by simp [roundEndOkHooks, plainHooks] at hf)
    (by decide) (by decide)
  have h1 := (hrej.1 rfl).2
  have h2 := (hok.2 rfl).2 (Or.inl (by decide))
  exact ⟨h1.1, h1.2, h2.1, h2.2⟩

/-- Counterexample to C6 as stated: with maxRounds set to 0 (a set bound
that round 2 would exceed) and a resolving handleRoundEnd at round 1, the
claim requires the game to end, but the source guard treats the zero as
falsy: the game does not end and round 2 is started. -/
theorem C6_round_advancement_counterexample :
    (nextRound roundEndOkHooks 5 { liveSt with maxRounds := some 0 }).endResults
      = none ∧
    (nextRound roundEndOkHooks 5 { liveSt with maxRounds := some 0 }).round.number
      = 2 := by
  constructor <;> decide

/-- C7 (amended): in every state reachable through init, ready-up, move
acceptance and turn or round advancement, an active turn addresses the
player at playerOrder[turn.number - 1], and each of those operations
preserves the invariant; setPlayerTurnOrder is excluded because it can
rewrite playerOrder under an active turn. -/
theorem C7_turn_addressing (g : GameHooks) (st : GState) (h : Reach g st) :
    turnInv st := by
  induction h with
  | init ids => simp [turnInv, mkGame]
  | ready st fuel pid payload _ ih => exact readyUp_turnInv g fuel st pid payload ih
  | move st fuel pid m _ ih => exact playerMove_turnInv g fuel st pid m ih
  | turnAdv st fuel b _ ih => exact nextTurn_turnInv g fuel st b ih
  | roundAdv st fuel _ ih =>
    exact ((lifecycle_pres g fuel).2.2.2.2.1 st).2.2.2.2.2 ih

/-- Witness for C7 at the concrete two-player game after both ready up. -/
theorem C7_turn_addressing_witness : turnInv c7Before :=
  C7_turn_addressing plainHooks c7Before
    (Reach.ready _ 5 "b" .undefined
      (Reach.ready _ 5 "a" .undefined (Reach.init ["a", "b"])))

/-- Counterexample to C7 as stated: the claim admits setPlayerTurnOrder
among the invariant-preserving operations, but calling it with
["b", "a"] while turn 1 of player a is active yields a reachable state
whose active turn no longer addresses playerOrder[0]. -/
theorem C7_turn_addressing_counterexample :
    ReachX plainHooks c7After ∧ turnInv c7Before ∧
    0 < c7After.turn.number ∧ ¬ turnInv c7After := by
  refine ⟨ReachX.setOrder _ _ _ (ReachX.ready _ 5 "b" .undefined
    (ReachX.ready _ 5 "a" .undefined (ReachX.init ["a", "b"]))), ?_, ?_, ?_⟩
  · decide
  · decide
  · decide

theorem markReady_unready_count (l : List Player) (pid : PId)
    (h : lookupReady l pid = some false) :
    unreadyCount l = unreadyCount (markReady l pid) + 1 := by
  induction l with
  | nil => simp [lookupReady] at h
  | cons p ps ih =>
    by_cases hp : (p._id == pid) = true
    · have hready : p.ready = false := by
        unfold lookupReady at h
        simp only [List.find?_cons, hp, if_true] at h
        simpa using h
      unfold markReady
      rw [if_pos hp]
      simp [unreadyCount, List.filter_cons, hready]
    · have hpf : (p._id == pid) = false := by simpa using hp
      have htail : lookupReady ps pid = some false := by
        unfold lookupReady at h ⊢
        simpa [List.find?_cons, hpf] using h
      unfold markReady
      rw [if_neg hp]
      have := ih htail
      cases hr : p.ready <;>
        simp [unreadyCount, List.filter_cons, hr] at this ⊢ <;> omega

/-- Everyone in a freshly created game is unready. -/
theorem mkGame_unready_count (ids : List PId) :
    unreadyCount (mkGame ids).players = ids.length := by
  unfold mkGame unreadyCount
  induction ids with
  | nil => rfl
  | cons a as iha => simpa [List.filter_cons] using iha

theorem mkGame_lookup (ids : List PId) (pid : PId) (h : pid ∈ ids) :
    lookupReady (mkGame ids).players pid = some false := by
  unfold mkGame lookupReady
  induction ids with
  | nil => cases h
  | cons a as iha =>
    by_cases ha : (a == pid) = true
    · simp [List.find?_cons, ha]
    · have haf : (a == pid) = false := by simpa using ha
      rcases List.mem_cons.mp h with he | hm
      · exact absurd (by simp [he]) ha
      · simpa [List.find?_cons, haf] using iha hm

/-- The ready-up success path without a handleReadyUp hook. -/
theorem readyUp_noHook_success (g : GameHooks) (fuel : Nat) (st : GState)
    (pid : PId) (payload : JSVal) (p : Player)
    (hg : g.handleReadyUp = none) (hns : st.started = false)
    (hfp : findPlayer st pid = some p) (hnr : p.ready = false) :
    readyUp g fuel st pid payload = (.ret (.bool true), executeReady g fuel pid st) := by
  simp [readyUp, hns, hfp, hnr, hg]

/-- The counting invariant of a run of distinct successful ready-ups with
no handleReadyUp hook: with more callers outstanding than the run covers
the game stays unstarted, and a run covering every unready player starts
it on its last step. -/
theorem runReadyUps_spec (g : GameHooks) (fuel : Nat) (payload : JSVal)
    (hg : g.handleReadyUp = none) :
    ∀ (pids : List PId) (st : GState),
      st.started = false →
      pids.Nodup →
      (∀ pid ∈ pids, lookupReady st.players pid = some false) →
      pids.length ≤ unreadyCount st.players →
      ((pids.length < unreadyCount st.players →
          (runReadyUps g fuel payload st pids).started = false ∧
          unreadyCount (runReadyUps g fuel payload st pids).players =
            unreadyCount st.players - pids.length) ∧
       (pids.length = unreadyCount st.players → 0 < pids.length →
          (runReadyUps g fuel payload st pids).started = true)) := by
  intro pids
  induction pids with
  | nil =>
    intro st hns _ _ _
    exact ⟨fun _ => ⟨hns, by simp [runReadyUps]⟩,
      fun _ h1 => absurd h1 (by simp)⟩
  | cons pid pids ih =>
    intro st hns hnd hlook hle
    have hle' : pids.length + 1 ≤ unreadyCount st.players := by
      simpa using hle
    have hlookpid : lookupReady st.players pid = some false :=
      hlook pid (by simp)
    obtain ⟨p, hfp, hpr⟩ : ∃ p, findPlayer st pid = some p ∧ p.ready = false := by
      have hmap : (findPlayer st pid).map Player.ready = some false := hlookpid
      rcases hq : findPlayer st pid with _ | q
      · rw [hq] at hmap; simp at hmap
      · rw [hq] at hmap; exact ⟨q, rfl, by simpa using hmap⟩
    have hstep : (readyUp g fuel st pid payload).2 = executeReady g fuel pid st := by
      rw [readyUp_noHook_success g fuel st pid payload p hg hns hfp hpr]
    have hcount : unreadyCount st.players =
        unreadyCount (markReady st.players pid) + 1 :=
      markReady_unready_count _ _ hlookpid
    have hplayers : (executeReady g fuel pid st).players = markReady st.players pid :=
      executeReady_players g fuel pid st
    have hstarted := executeReady_started g fuel pid st
    have hrun : runReadyUps g fuel payload st (pid :: pids) =
        runReadyUps g fuel payload (executeReady g fuel pid st) pids := by
      simp [runReadyUps, hstep]
    by_cases hz : unreadyCount (markReady st.players pid) = 0
    · have hcount1 : unreadyCount st.players = 1 := by omega
      have hpidsnil : pids = [] := by
        have h2 : pids.length + 1 ≤ 1 := by rw [hcount1] at hle'; exact hle'
        cases pids with
        | nil => rfl
        | cons x xs => simp at h2
      subst hpidsnil
      have hs2 : (executeReady g fuel pid st).started = true := by
        rw [hstarted, if_pos hz]
      refine ⟨fun hlt => absurd hlt (by simp [hcount1]), fun _ _ => ?_⟩
      rw [hrun]
      simpa [runReadyUps] using hs2
    · have hs2 : (executeReady g fuel pid st).started = false := by
        rw [hstarted, if_neg hz]; exact hns
      have hnd2 : pids.Nodup := (List.nodup_cons.mp hnd).2
      have hpidnot : pid ∉ pids := (List.nodup_cons.mp hnd).1
      have hlook2 : ∀ pid' ∈ pids,
          lookupReady (executeReady g fuel pid st).players pid' = some false := by
        intro pid' hmem
        rw [hplayers,
          markReady_lookup_other st.players pid pid' (fun he => hpidnot (he ▸ hmem))]
        exact hlook pid' (by simp [hmem])
      have hle2 : pids.length ≤ unreadyCount (executeReady g fuel pid st).players := by
        rw [hplayers]; omega
      obtain ⟨ihlt, iheq⟩ := ih (executeReady g fuel pid st) hs2 hnd2 hlook2 hle2
      constructor
      · intro hlt
        have hlt' : pids.length + 1 < unreadyCount st.players := by simpa using hlt
        have hlt2 : pids.length < unreadyCount (executeReady g fuel pid st).players := by
          rw [hplayers]; omega
        obtain ⟨ha, hb⟩ := ihlt hlt2
        rw [hrun]
        refine ⟨ha, ?_⟩
        rw [hb, hplayers]
        simp only [List.length_cons]
        omega
      · intro heq _
        have heq' : pids.length + 1 = unreadyCount st.players := by simpa using heq
        rw [hrun]
        exact iheq (by rw [hplayers]; omega) (by omega)

/-- C5: with ready-up enabled (no handleReadyUp hook, so every submission
succeeds) and N players none of whom is ready, a run of distinct
ready-ups keeps started false while it covers fewer than N players, and a
run covering all N players sets started to true within its last step. -/
theorem C5_ready_up_transition (g : GameHooks) (fuel : Nat) (payload : JSVal)
    (ids pids : List PId) (hg : g.handleReadyUp = none)
    (hnd : pids.Nodup) (hsub : ∀ pid ∈ pids, pid ∈ ids) :
    (pids.length < ids.length →
      (runReadyUps g fuel payload (mkGame ids) pids).started = false) ∧
    (pids.length = ids.length → 0 < ids.length →
      (runReadyUps g fuel payload (mkGame ids) pids).started = true) := by
  have hcount := mkGame_unready_count ids
  have hlook : ∀ pid ∈ pids, lookupReady (mkGame ids).players pid = some false :=
    fun pid hmem => mkGame_lookup ids pid (hsub pid hmem)
  have hle : pids.length ≤ ids.length := (hnd.subperm hsub).length_le
  obtain ⟨hlt, heq⟩ := runReadyUps_spec g fuel payload hg pids (mkGame ids)
    rfl hnd hlook (by rw [hcount]; exact hle)
  refine ⟨fun h => (hlt (by rw [hcount]; exact h)).1,
    fun h hp => heq (by rw [hcount]; exact h) (by omega)⟩

/-- Witness for C5 with two players: one ready-up leaves the game
unstarted, both ready-ups start it. -/
theorem C5_ready_up_transition_witness :
    (runReadyUps plainHooks 5 .undefined (mkGame ["a", "b"]) ["a"]).started
      = false ∧
    (runReadyUps plainHooks 5 .undefined (mkGame ["a", "b"]) ["a", "b"]).started
      = true := by
  constructor
  · exact (C5_ready_up_transition plainHooks 5 .undefined ["a", "b"] ["a"]
      rfl (by decide) (by decide)).1 (by decide)
  · exact (C5_ready_up_transition plainHooks 5 .undefined ["a", "b"] ["a", "b"]
      rfl (by decide) (by decide)).2 (by decide) (by decide)

theorem cons_set_perm (xs : List α) : ∀ (k : Nat) (x b : α),
    xs[k]? = some b → (b :: xs.set k x).Perm (x :: xs) := by
  induction xs with
  | nil => intro k x b h; simp at h
  | cons y ys ih =>
    intro k x b h
    cases k with
    | zero =>
      have hyb : y = b := by simpa using h
      subst hyb
      exact List.Perm.swap x y ys
    | succ k =>
      have h2 : ys[k]? = some b := by simpa using h
      exact (List.Perm.swap y b (ys.set k x)).trans
        (((ih k x b h2).cons y).trans (List.Perm.swap x y ys))

theorem set_set_perm : ∀ (l : List α) (i j : Nat) (a b : α),
    l[i]? = some a → l[j]? = some b → ((l.set i b).set j a).Perm l := by
  intro l
  induction l with
  | nil => intro i j a b hi _; simp at hi
  | cons x xs ih =>
    intro i j a b hi hj
    cases i with
    | zero =>
      have hax : x = a := by simpa using hi
      subst hax
      cases j with
      | zero =>
        have hbx : x = b := by simpa using hj
        subst hbx
        exact List.Perm.refl _
      | succ k =>
        have h2 : xs[k]? = some b := by simpa using hj
        exact cons_set_perm xs k x b h2
    | succ k =>
      cases j with
      | zero =>
        have hbx : x = b := by simpa using hj
        subst hbx
        have h2 : xs[k]? = some a := by simpa using hi
        exact cons_set_perm xs k x a h2
      | succ m =>
        have h1 : xs[k]? = some a := by simpa using hi
        have h2 : xs[m]? = some b := by simpa using hj
        exact (ih k m a b h1 h2).cons x

theorem swapAt_perm (l : List α) (i j : Nat) : (swapAt l i j).Perm l := by
  unfold swapAt
  rcases hi : l[i]? with _ | a
  · exact List.Perm.refl l
  · rcases hj : l[j]? with _ | b
    · exact List.Perm.refl l
    · exact set_set_perm l i j a b hi hj

theorem shuffleLoop_perm (rand : Nat → Nat) :
    ∀ (n : Nat) (l : List α), (shuffleLoop rand n l).Perm l := by
  intro n
  induction n with
  | zero => intro l; exact List.Perm.refl l
  | succ n ihn =>
    intro l
    exact (ihn (swapAt l n (rand (n + 1) % (n + 1)))).trans
      (swapAt_perm l n (rand (n + 1) % (n + 1)))

/-- The Fisher-Yates helper returns a permutation of its input for every
draw of the randomness source. -/
theorem shuffle_perm (rand : Nat → Nat) (l : List α) :
    (shuffle rand l).Perm l :=
  shuffleLoop_perm rand l.length l

/-- C9: setPlayerTurnOrder with the randomization token makes playerOrder
a permutation of the current players identifiers (same multiset, order
unconstrained) for every draw of the randomness source, and with an
explicit array makes playerOrder exactly that array. -/
theorem C9_set_player_turn_order (rand : Nat → Nat) (st : GState)
    (l : List PId) :
    (setPlayerTurnOrder rand st (.explicitOrder l)).playerOrder = l ∧
    ((setPlayerTurnOrder rand st .random).playerOrder).Perm
      (st.players.map Player._id) :=
  ⟨rfl, (shuffle_perm rand st.players).map Player._id⟩

end Gamenight
